import Mathlib

/-!
# Formal model of the top-down shooter (src/main.cpp)

A shallow embedding of the simulation core of the game: the entity model
(`Entity`, `Projectile`, `Player`, `Enemy`), rooms, the projectile pool, and
the per-tick update pipeline of the `Game` class, together with theorems about
the claims made by the design specification.

Modelling conventions:
* C++ `float` values are modelled as exact rationals (`ℚ`); `int` as `ℤ`.
* `sqrt` in distance computations is `Real.sqrt` applied to the rational
  operand cast to `ℝ`; decidable characterizations let concrete states be
  evaluated by `decide`.
* The Mersenne-twister random stream, `cos`/`sin` of random angles, and the
  wall-clock-driven boss perturbation are abstracted as oracle parameters:
  an oracle supplies the velocity pair a `ChangeDirection` call would compute
  and the additive boss velocity terms.  No claim below depends on the actual
  values these oracles produce.
* Keyboard polling is modelled as an input snapshot passed to the tick.
-/

namespace Shooter

set_option maxRecDepth 40000

/-- Fixed game constant: player movement speed (units/s). -/
def PLAYER_SPEED : ℚ := 200

/-- Fixed game constant: enemy movement speed (units/s). -/
def ENEMY_SPEED : ℚ := 80

/-- Fixed game constant: initial player health. -/
def PLAYER_HEALTH : ℤ := 100

/-- Fixed game constant: initial enemy health. -/
def ENEMY_HEALTH : ℤ := 30

/-- Fixed game constant: initial boss health. -/
def BOSS_HEALTH : ℤ := 150

/-- Fixed game constant: player shoot cooldown (seconds). -/
def PLAYER_SHOOT_COOLDOWN : ℚ := 3 / 10

/-- Fixed game constant: enemy shoot cooldown (seconds). -/
def ENEMY_SHOOT_COOLDOWN : ℚ := 3 / 2

/-- Fixed game constant: projectile speed (units/s). -/
def PROJECTILE_SPEED : ℚ := 400

/-- The four facing / movement directions (`enum Direction`). -/
inductive Direction
  | UP
  | RIGHT
  | DOWN
  | LEFT
deriving DecidableEq

/-- The colors used by the simulation core (opaque render tags). -/
inductive Color
  | YELLOW
  | RED
  | BLUE
  | PURPLE
deriving DecidableEq

/-- Base `Entity` struct: position, radius, health, active flag, color and
facing direction. -/
structure Entity where
  x : ℚ
  y : ℚ
  radius : ℚ
  health : ℤ
  maxHealth : ℤ
  active : Bool
  color : Color
  facing : Direction
deriving DecidableEq

/-- The `Entity(startX, startY, r, hp, c)` constructor: full health, active,
facing right. -/
def Entity.new (startX startY r : ℚ) (hp : ℤ) (c : Color) : Entity :=
  { x := startX, y := startY, radius := r, health := hp, maxHealth := hp,
    active := true, color := c, facing := .RIGHT }

/-- `Entity::TakeDamage`: subtract `amount` from health; if the result is
`≤ 0`, clamp health to `0` and deactivate. -/
def Entity.TakeDamage (e : Entity) (amount : ℤ) : Entity :=
  if e.health - amount ≤ 0 then
    { e with health := 0, active := false }
  else
    { e with health := e.health - amount }

/-- `sqrt(dx*dx + dy*dy) < s`, exactly as `Entity::IsColliding` computes it
(with the rational operands cast to `ℝ` for the square root). -/
def sqrtDistLt (dx dy s : ℚ) : Prop :=
  Real.sqrt ((dx * dx + dy * dy : ℚ) : ℝ) < ((s : ℚ) : ℝ)

/-- `sqrt(dx*dx + dy*dy) ≤ c`, exactly as the enemy aggro test computes it. -/
def sqrtDistLe (dx dy c : ℚ) : Prop :=
  Real.sqrt ((dx * dx + dy * dy : ℚ) : ℝ) ≤ ((c : ℚ) : ℝ)

theorem sqrtDistLt_iff (dx dy s : ℚ) :
    sqrtDistLt dx dy s ↔ 0 < s ∧ dx * dx + dy * dy < s * s := by
  unfold sqrtDistLt
  constructor
  · intro h
    have hs : (0 : ℝ) < ((s : ℚ) : ℝ) := lt_of_le_of_lt (Real.sqrt_nonneg _) h
    have hs' : 0 < s := by exact_mod_cast hs
    rw [Real.sqrt_lt' hs] at h
    refine ⟨hs', ?_⟩
    have hsq : (((s : ℚ) : ℝ)) ^ 2 = ((s * s : ℚ) : ℝ) := by push_cast; ring
    rw [hsq] at h
    exact_mod_cast h
  · rintro ⟨hs, h⟩
    have hs' : (0 : ℝ) < ((s : ℚ) : ℝ) := by exact_mod_cast hs
    rw [Real.sqrt_lt' hs']
    have hsq : (((s : ℚ) : ℝ)) ^ 2 = ((s * s : ℚ) : ℝ) := by push_cast; ring
    rw [hsq]
    exact_mod_cast h

theorem sqrtDistLe_iff (dx dy c : ℚ) :
    sqrtDistLe dx dy c ↔ 0 ≤ c ∧ dx * dx + dy * dy ≤ c * c := by
  unfold sqrtDistLe
  rw [Real.sqrt_le_iff]
  have hsq : (((c : ℚ) : ℝ)) ^ 2 = ((c * c : ℚ) : ℝ) := by push_cast; ring
  rw [hsq]
  constructor
  · rintro ⟨h1, h2⟩
    exact ⟨by exact_mod_cast h1, by exact_mod_cast h2⟩
  · rintro ⟨h1, h2⟩
    exact ⟨by exact_mod_cast h1, by exact_mod_cast h2⟩

instance (dx dy s : ℚ) : Decidable (sqrtDistLt dx dy s) :=
  decidable_of_iff _ (sqrtDistLt_iff dx dy s).symm

instance (dx dy c : ℚ) : Decidable (sqrtDistLe dx dy c) :=
  decidable_of_iff _ (sqrtDistLe_iff dx dy c).symm

/-- The Euclidean distance between the centers of two entities, as
`Entity::IsColliding` computes it.  (The only non-executable definition in
this development: it is real-valued because of the square root; the
collision predicate built from it is decidable via `sqrtDistLt_iff`.) -/
noncomputable def Entity.distanceTo (a b : Entity) : ℝ :=
  Real.sqrt (((a.x - b.x) * (a.x - b.x) + (a.y - b.y) * (a.y - b.y) : ℚ) : ℝ)

/-- `Entity::IsColliding`: the Euclidean distance between the two centers is
strictly below the sum of the radii. -/
def Entity.IsColliding (a b : Entity) : Prop :=
  sqrtDistLt (a.x - b.x) (a.y - b.y) (a.radius + b.radius)

theorem Entity.isColliding_eq_distanceTo (a b : Entity) :
    a.IsColliding b ↔ a.distanceTo b < ((a.radius + b.radius : ℚ) : ℝ) :=
  Iff.rfl

instance (a b : Entity) : Decidable (a.IsColliding b) := by
  unfold Entity.IsColliding
  infer_instance

/-- `struct Projectile`: an entity with a velocity vector, a faction flag and
a damage amount. -/
structure Projectile extends Entity where
  speedX : ℚ
  speedY : ℚ
  isEnemyProjectile : Bool
  damage : ℤ
deriving DecidableEq

/-- The default `Projectile()` constructor: placed at the origin with radius 5,
health 1, yellow, then immediately marked inactive; zero velocity, player
faction, damage 10. -/
def Projectile.default : Projectile :=
  { toEntity := { Entity.new 0 0 5 1 .YELLOW with active := false },
    speedX := 0, speedY := 0, isEnemyProjectile := false, damage := 10 }

/-- `Projectile::Fire`: position at the supplied spawn point, activate, record
the faction, set color/damage by faction and the velocity by direction. -/
def Projectile.Fire (p : Projectile) (startX startY : ℚ) (dir : Direction)
    (fromEnemy : Bool) : Projectile :=
  { p with
    x := startX, y := startY, active := true, isEnemyProjectile := fromEnemy,
    color := if fromEnemy then .RED else .YELLOW,
    damage := if fromEnemy then 5 else 10,
    speedX := match dir with
      | .RIGHT => PROJECTILE_SPEED
      | .LEFT => -PROJECTILE_SPEED
      | _ => 0,
    speedY := match dir with
      | .DOWN => PROJECTILE_SPEED
      | .UP => -PROJECTILE_SPEED
      | _ => 0 }

/-- `Projectile::Update`: integrate position by velocity × dt while active. -/
def Projectile.Update (p : Projectile) (dt : ℚ) : Projectile :=
  if p.active then { p with x := p.x + p.speedX * dt, y := p.y + p.speedY * dt }
  else p

/-- The spawn-point computation of `Game::FireProjectile`: offset the origin
by 20 units along the firing direction. -/
def spawnPos (sourceX sourceY : ℚ) : Direction → ℚ × ℚ
  | .UP => (sourceX, sourceY - 20)
  | .RIGHT => (sourceX + 20, sourceY)
  | .DOWN => (sourceX, sourceY + 20)
  | .LEFT => (sourceX - 20, sourceY)

/-- Activating one pool slot, as `Game::FireProjectile` does: compute the
spawn point and call `Projectile::Fire` on the slot. -/
def fireAt (p : Projectile) (sourceX sourceY : ℚ) (dir : Direction)
    (isEnemy : Bool) : Projectile :=
  p.Fire (spawnPos sourceX sourceY dir).1 (spawnPos sourceX sourceY dir).2 dir isEnemy

/-- The per-frame keyboard snapshot read by the core. -/
structure Input where
  keyW : Bool
  keyS : Bool
  keyA : Bool
  keyD : Bool
  keySpace : Bool
  keyEnter : Bool
deriving DecidableEq

/-- `struct Player`: an entity with a velocity and a shoot-cooldown timer. -/
structure Player extends Entity where
  speedX : ℚ
  speedY : ℚ
  shootCooldown : ℚ
deriving DecidableEq

/-- The `Player(startX, startY)` constructor: radius 15, `PLAYER_HEALTH`,
blue, zero velocity and cooldown. -/
def Player.new (startX startY : ℚ) : Player :=
  { toEntity := Entity.new startX startY 15 PLAYER_HEALTH .BLUE,
    speedX := 0, speedY := 0, shootCooldown := 0 }

/-- `Player::Update`: velocity recomputed from scratch from the W/S/A/D key
states (in that evaluation order, updating `facing` per pressed key), position
integrated by velocity × dt, cooldown decremented while positive. -/
def Player.Update (p : Player) (inp : Input) (dt : ℚ) : Player :=
  let p1 := { p with speedX := 0, speedY := 0 }
  let p2 := if inp.keyW then { p1 with speedY := -PLAYER_SPEED, facing := .UP } else p1
  let p3 := if inp.keyS then { p2 with speedY := PLAYER_SPEED, facing := .DOWN } else p2
  let p4 := if inp.keyA then { p3 with speedX := -PLAYER_SPEED, facing := .LEFT } else p3
  let p5 := if inp.keyD then { p4 with speedX := PLAYER_SPEED, facing := .RIGHT } else p4
  let p6 := { p5 with x := p5.x + p5.speedX * dt, y := p5.y + p5.speedY * dt }
  if p6.shootCooldown > 0 then { p6 with shootCooldown := p6.shootCooldown - dt } else p6

/-- `Player::CanShoot`: the cooldown has elapsed. -/
def Player.CanShoot (p : Player) : Bool :=
  decide (p.shootCooldown ≤ 0)

/-- `Player::ResetShootCooldown`. -/
def Player.ResetShootCooldown (p : Player) : Player :=
  { p with shootCooldown := PLAYER_SHOOT_COOLDOWN }

/-- `TakeDamage` on a player (inherited from `Entity`). -/
def Player.TakeDamage (p : Player) (amount : ℤ) : Player :=
  { p with toEntity := p.toEntity.TakeDamage amount }

/-- `struct Enemy` (and, via the `isBoss` tag, `struct Boss`): an entity with
a velocity, a shoot cooldown, an aggro flag and a wander timer. -/
structure Enemy extends Entity where
  speedX : ℚ
  speedY : ℚ
  shootCooldown : ℚ
  aggro : Bool
  moveTimer : ℚ
  isBoss : Bool
deriving DecidableEq

/-- `Enemy::ChangeDirection`, with the randomly drawn velocity
`(cos θ · ENEMY_SPEED, sin θ · ENEMY_SPEED)` supplied by the oracle `v`;
`facing` is derived from the dominant velocity axis. -/
def Enemy.ChangeDirection (e : Enemy) (v : ℚ × ℚ) : Enemy :=
  { e with
    speedX := v.1, speedY := v.2,
    facing :=
      if |v.1| > |v.2| then (if v.1 > 0 then .RIGHT else .LEFT)
      else (if v.2 > 0 then .DOWN else .UP) }

/-- The `Enemy(startX, startY, rng)` constructor: radius 12, `ENEMY_HEALTH`,
red, no aggro, then an initial `ChangeDirection` draw (oracle `v`). -/
def Enemy.new (startX startY : ℚ) (v : ℚ × ℚ) : Enemy :=
  Enemy.ChangeDirection
    { toEntity := Entity.new startX startY 12 ENEMY_HEALTH .RED,
      speedX := 0, speedY := 0, shootCooldown := 0, aggro := false,
      moveTimer := 0, isBoss := false } v

/-- The `Boss(startX, startY, rng)` constructor: an enemy with radius 25,
`BOSS_HEALTH`, purple, tagged as boss. -/
def Boss.new (startX startY : ℚ) (v : ℚ × ℚ) : Enemy :=
  { Enemy.new startX startY v with
    radius := 25, health := BOSS_HEALTH,
    maxHealth := BOSS_HEALTH, color := .PURPLE, isBoss := true }

/-- `Enemy::Update` (with the `Boss::Update` override layered on for boss
enemies): recompute `aggro` from the distance to the player; when not
aggroed accumulate the wander timer and redraw the heading (oracle `chg`)
every 2 seconds; when aggroed snap `facing` toward the player by dominant
axis; integrate position; decrement the cooldown while positive.  For a boss,
`bossPerturb` supplies the two wall-clock sinusoidal terms
`cos(t·0.5)·ENEMY_SPEED·0.5` and `sin(t·0.3)·ENEMY_SPEED·0.5` that are then
blended 50/50 with the current velocity. -/
def Enemy.Update (e : Enemy) (dt : ℚ) (player : Player) (chg : ℚ × ℚ)
    (bossPerturb : ℚ × ℚ) : Enemy :=
  let dx := player.x - e.x
  let dy := player.y - e.y
  let e1 : Enemy := { e with aggro := decide (sqrtDistLe dx dy 150) }
  let e2 : Enemy :=
    if e1.aggro = false then
      if e1.moveTimer + dt ≥ 2 then
        { e1.ChangeDirection chg with moveTimer := 0 }
      else
        { e1 with moveTimer := e1.moveTimer + dt }
    else
      { e1 with facing :=
          if |dx| > |dy| then (if dx > 0 then .RIGHT else .LEFT)
          else (if dy > 0 then .DOWN else .UP) }
  let e3 : Enemy := { e2 with x := e2.x + e2.speedX * dt, y := e2.y + e2.speedY * dt }
  let e4 : Enemy :=
    if e3.shootCooldown > 0 then { e3 with shootCooldown := e3.shootCooldown - dt }
    else e3
  if e4.isBoss then
    { e4 with
      speedX := bossPerturb.1 + e4.speedX * (1 / 2),
      speedY := bossPerturb.2 + e4.speedY * (1 / 2) }
  else e4

/-- `Enemy::CanShoot`: off cooldown and aggroed. -/
def Enemy.CanShoot (e : Enemy) : Bool :=
  decide (e.shootCooldown ≤ 0) && e.aggro

/-- `Enemy::ResetShootCooldown`. -/
def Enemy.ResetShootCooldown (e : Enemy) : Enemy :=
  { e with shootCooldown := ENEMY_SHOOT_COOLDOWN }

/-- `TakeDamage` on an enemy (inherited from `Entity`). -/
def Enemy.TakeDamage (e : Enemy) (amount : ℤ) : Enemy :=
  { e with toEntity := e.toEntity.TakeDamage amount }

/-- `struct Room`: rectangular bounds, owned enemy roster, clear flag, boss
tag. -/
structure Room where
  x : ℚ
  y : ℚ
  width : ℚ
  height : ℚ
  enemies : List Enemy
  cleared : Bool
  hasBoss : Bool
deriving DecidableEq

/-- The `Room(posX, posY, w, h, boss)` constructor: empty roster, not
cleared. -/
def Room.new (posX posY w h : ℚ) (boss : Bool) : Room :=
  { x := posX, y := posY, width := w, height := h, enemies := [],
    cleared := false, hasBoss := boss }

/-- `Room::AddEnemy`: append a fresh enemy to the roster. -/
def Room.AddEnemy (r : Room) (enemyX enemyY : ℚ) (v : ℚ × ℚ) : Room :=
  { r with enemies := r.enemies ++ [Enemy.new enemyX enemyY v] }

/-- `Room::AddBoss`: append a fresh boss to the roster. -/
def Room.AddBoss (r : Room) (bossX bossY : ℚ) (v : ℚ × ℚ) : Room :=
  { r with enemies := r.enemies ++ [Boss.new bossX bossY v] }

/-- The containment rule `Room::Update` applies after an enemy's own update:
clamp the enemy's position into the room bounds shrunk by its radius. -/
def Room.clampEnemy (r : Room) (e : Enemy) : Enemy :=
  { e with
    x := max (r.x + e.radius) (min e.x (r.x + r.width - e.radius)),
    y := max (r.y + e.radius) (min e.y (r.y + r.height - e.radius)) }

/-- The enemy-update loop of `Room::Update`: every active enemy is updated
(consuming oracle entry `chg i` for the enemy at roster index `i`) and then
clamped into the room; inactive enemies are skipped. -/
def Room.updateEnemies (r : Room) (dt : ℚ) (player : Player)
    (chg : ℕ → ℚ × ℚ) (bossPerturb : ℚ × ℚ) : ℕ → List Enemy → List Enemy
  | _, [] => []
  | i, e :: rest =>
      (if e.active then r.clampEnemy (e.Update dt player (chg i) bossPerturb) else e)
        :: r.updateEnemies dt player chg bossPerturb (i + 1) rest

/-- `Room::Update`: update the roster, then recompute `cleared` as "no
contained enemy is active" (the scan-with-break in the source computes
exactly this conjunction). -/
def Room.Update (r : Room) (dt : ℚ) (player : Player) (chg : ℕ → ℚ × ℚ)
    (bossPerturb : ℚ × ℚ) : Room :=
  let es := r.updateEnemies dt player chg bossPerturb 0 r.enemies
  { r with enemies := es, cleared := es.all (fun e => !e.active) }

/-- `Room::ContainsPoint`: inclusive rectangular bound test. -/
def Room.ContainsPoint (r : Room) (pointX pointY : ℚ) : Bool :=
  decide (pointX ≥ r.x) && decide (pointX ≤ r.x + r.width) &&
    decide (pointY ≥ r.y) && decide (pointY ≤ r.y + r.height)

/-- The pool scan of `Game::FireProjectile`: activate the first slot with
`active = false` (first-fit in pool index order) and stop; leave every other
slot untouched.  An exhausted pool drops the request. -/
def FirePool : List Projectile → ℚ → ℚ → Direction → Bool → List Projectile
  | [], _, _, _, _ => []
  | p :: rest, sx, sy, dir, isEnemy =>
      if p.active = false then fireAt p sx sy dir isEnemy :: rest
      else p :: FirePool rest sx sy dir isEnemy

/-- Fixed game constant: window width (also room width). -/
def SCREEN_WIDTH : ℚ := 800

/-- Fixed game constant: window height (also room height). -/
def SCREEN_HEIGHT : ℚ := 600

/-- Per-tick oracle inputs standing for the random stream and the wall
clock: `chg i` is the velocity a `ChangeDirection` call by the enemy at
roster index `i` would draw, `bossPerturb` the two sinusoidal boss terms. -/
structure Oracles where
  chg : ℕ → ℚ × ℚ
  bossPerturb : ℚ × ℚ

/-- Oracle inputs for level generation, standing for the random stream:
`counts i` is the enemy count drawn for room `i`, `pos i j` the position and
`vel i j` the initial heading of enemy `j` of room `i`. -/
structure ResetOracle where
  counts : ℕ → ℕ
  pos : ℕ → ℕ → ℚ × ℚ
  vel : ℕ → ℕ → ℚ × ℚ

/-- `class Game`: session mode flags, the player, the room sequence, the
current-room cursor and the projectile pool. -/
structure Game where
  isMainMenu : Bool
  isGameOver : Bool
  player : Player
  rooms : List Room
  currentRoom : ℕ
  projectiles : List Projectile

/-- `Game::FireProjectile`: delegate to the pool scan; no other game state
is touched. -/
def Game.FireProjectile (g : Game) (sourceX sourceY : ℚ) (dir : Direction)
    (isEnemy : Bool) : Game :=
  { g with projectiles := FirePool g.projectiles sourceX sourceY dir isEnemy }

/-- The player-shooting step of `Game::UpdateGame`: if the fire key is held
and the player is off cooldown, fire from the player's position along its
facing and reset the player's cooldown. -/
def PlayerShooting (inp : Input) (pool : List Projectile) (p : Player) :
    List Projectile × Player :=
  if inp.keySpace = true ∧ p.CanShoot = true then
    (FirePool pool p.x p.y p.facing false, p.ResetShootCooldown)
  else (pool, p)

/-- The enemy-shooting loop of `Game::UpdateGame`: every active, off-cooldown,
aggroed enemy of the current room fires an enemy projectile (in roster order,
so earlier enemies claim earlier pool slots) and has its cooldown reset. -/
def EnemyShooting : List Projectile → List Enemy → List Projectile × List Enemy
  | pool, [] => (pool, [])
  | pool, e :: rest =>
      if e.active = true ∧ e.CanShoot = true then
        let res := EnemyShooting (FirePool pool e.x e.y e.facing true) rest
        (res.1, e.ResetShootCooldown :: res.2)
      else
        let res := EnemyShooting pool rest
        (res.1, e :: res.2)

/-- The enemy scan a player projectile performs in `Game::UpdateProjectiles`:
damage the first active colliding enemy in roster order (`some` of the
updated roster), or report `none` if it hits nobody. -/
def DamageFirstHit (p : Projectile) : List Enemy → Option (List Enemy)
  | [] => none
  | e :: rest =>
      if e.active = true ∧ p.toEntity.IsColliding e.toEntity then
        some (e.TakeDamage p.damage :: rest)
      else
        match DamageFirstHit p rest with
        | some rest' => some (e :: rest')
        | none => none

/-- Handling of one pool slot in `Game::UpdateProjectiles`: advance an active
projectile, deactivate it if it left the room, otherwise resolve it against
the room's enemies (player faction) or the player (enemy faction). -/
def ProjStep (room : Room) (dt : ℚ) (p : Projectile) (enemies : List Enemy)
    (player : Player) : Projectile × List Enemy × Player :=
  if p.active = true then
    if room.ContainsPoint (p.Update dt).x (p.Update dt).y = false then
      ({ p.Update dt with active := false }, enemies, player)
    else if (p.Update dt).isEnemyProjectile = false then
      match DamageFirstHit (p.Update dt) enemies with
      | some enemies' => ({ p.Update dt with active := false }, enemies', player)
      | none => (p.Update dt, enemies, player)
    else
      if (p.Update dt).toEntity.IsColliding player.toEntity then
        ({ p.Update dt with active := false }, enemies,
          player.TakeDamage (p.Update dt).damage)
      else (p.Update dt, enemies, player)
  else (p, enemies, player)

/-- `Game::UpdateProjectiles`: process the pool slots in index order,
threading the damage done to the room's enemies and the player. -/
def UpdateProjectilesLoop (room : Room) (dt : ℚ) :
    List Projectile → List Enemy → Player → List Projectile × List Enemy × Player
  | [], es, pl => ([], es, pl)
  | p :: ps, es, pl =>
      let one := ProjStep room dt p es pl
      let rest := UpdateProjectilesLoop room dt ps one.2.1 one.2.2
      (one.1 :: rest.1, rest.2.1, rest.2.2)

/-- Steps (1)–(6) of `Game::UpdateGame`: player movement and clamping into
the current room, player shooting, enemy shooting, projectile advance and
resolution, and the current room's update.  A cursor outside the room list
(never reachable) leaves the state unchanged. -/
def Game.preTransition (g : Game) (inp : Input) (dt : ℚ) (o : Oracles) : Game :=
  match g.rooms.get? g.currentRoom with
  | none => g
  | some room =>
      let pA : Player := g.player.Update inp dt
      let pB : Player := { pA with
        x := max (room.x + pA.radius) (min pA.x (room.x + room.width - pA.radius)),
        y := max (room.y + pA.radius) (min pA.y (room.y + room.height - pA.radius)) }
      let ps1 := PlayerShooting inp g.projectiles pB
      let es1 := EnemyShooting ps1.1 room.enemies
      let up := UpdateProjectilesLoop room dt es1.1 es1.2 ps1.2
      let room2 : Room := (({ room with enemies := up.2.1 } : Room)).Update dt up.2.2 o.chg o.bossPerturb
      { g with
        player := up.2.2
        rooms := g.rooms.set g.currentRoom room2
        projectiles := up.1 }

/-- Step (7) of `Game::UpdateGame`, the room-transition check: if the current
room is cleared and the player's x is past the room's right edge minus 50 and
a next room exists, advance the cursor by one and reposition the player to
the new room's `x + 50`; if the room is not cleared and the player's x is
past that boundary, clamp the player's x back to the boundary. -/
def Game.roomTransition (g : Game) : Game :=
  match g.rooms.get? g.currentRoom with
  | none => g
  | some room =>
      if room.cleared = true ∧ g.player.x > room.x + room.width - 50 then
        if g.currentRoom < g.rooms.length - 1 then
          let nroom := g.rooms.getD (g.currentRoom + 1) room
          { g with
            currentRoom := g.currentRoom + 1
            player := { g.player with x := nroom.x + 50 } }
        else g
      else if room.cleared = false ∧ g.player.x > room.x + room.width - 50 then
        { g with player := { g.player with x := room.x + room.width - 50 } }
      else g

/-- Step (8) of `Game::UpdateGame`: set `isGameOver` when the current room is
the last and cleared (victory), then set it when the player's health is `≤ 0`
(defeat) — the defeat check runs second; both checks only ever assign `true`
to the flag, so their sequence is the flag update below. -/
def Game.CheckWinLose (g : Game) : Game :=
  let victory : Bool :=
    match g.rooms.get? g.currentRoom with
    | none => false
    | some room => decide (g.currentRoom = g.rooms.length - 1) && room.cleared
  let afterVictory : Bool := if victory = true then true else g.isGameOver
  { g with
    isGameOver := if g.player.health ≤ 0 then true else afterVictory }

/-- `Game::UpdateGame`, one Playing tick: steps (1)–(6), then the room
transition, then the win/lose evaluation. -/
def Game.UpdateGame (g : Game) (inp : Input) (dt : ℚ) (o : Oracles) : Game :=
  ((g.preTransition inp dt o).roomTransition).CheckWinLose

/-- The game-over outcome, as `Game::DrawGameOver` decides it: defeat exactly
when the player's health is `≤ 0`, victory otherwise. -/
inductive Outcome
  | victory
  | defeat
deriving DecidableEq

/-- The outcome shown on the game-over screen (`Game::DrawGameOver`). -/
def Game.outcome (g : Game) : Outcome :=
  if g.player.health ≤ 0 then .defeat else .victory

/-- Room `i` as `Game::ResetGame` generates it: an 800×600 room at
`(i·800, 0)`; the last room (index 4) gets one boss at its center, the others
get `counts i` enemies at oracle-drawn positions. -/
def mkRoom (ro : ResetOracle) (i : ℕ) : Room :=
  let base := Room.new ((i : ℚ) * 800) 0 800 600 (decide (i = 4))
  if i = 4 then
    base.AddBoss ((i : ℚ) * 800 + 400) 300 (ro.vel i 0)
  else
    (List.range (ro.counts i)).foldl
      (fun r j => r.AddEnemy (ro.pos i j).1 (ro.pos i j).2 (ro.vel i j)) base

/-- `Game::ResetGame`: fresh player at screen center, five freshly generated
rooms, cursor 0, every pool slot deactivated, game-over flag cleared. -/
def Game.ResetGame (g : Game) (ro : ResetOracle) : Game :=
  { g with
    player := Player.new (SCREEN_WIDTH / 2) (SCREEN_HEIGHT / 2)
    rooms := (List.range 5).map (mkRoom ro)
    currentRoom := 0
    projectiles := g.projectiles.map (fun p => { p with active := false })
    isGameOver := false }

/-- The `Game()` constructor: main menu, player at screen center, a pool of
100 default (inactive) projectiles, then `ResetGame`. -/
def Game.new (ro : ResetOracle) : Game :=
  Game.ResetGame
    { isMainMenu := true, isGameOver := false
      player := Player.new (SCREEN_WIDTH / 2) (SCREEN_HEIGHT / 2)
      rooms := [], currentRoom := 0
      projectiles := List.replicate 100 Projectile.default } ro

/-- `Game::Update`, the top-level state machine dispatch: confirm leaves the
main menu; confirm on the game-over screen returns to the menu with a full
reset; otherwise one Playing tick runs. -/
def Game.Update (g : Game) (inp : Input) (dt : ℚ) (o : Oracles)
    (ro : ResetOracle) : Game :=
  if g.isMainMenu = true then
    if inp.keyEnter = true then { g with isMainMenu := false } else g
  else if g.isGameOver = true then
    if inp.keyEnter = true then { g.ResetGame ro with isMainMenu := true } else g
  else
    g.UpdateGame inp dt o

/-- The states reachable from a fresh `Game()` under any sequence of frames
(arbitrary inputs, delta-times and oracle draws). -/
inductive Reachable : Game → Prop
  | init (ro : ResetOracle) : Reachable (Game.new ro)
  | step (g : Game) (inp : Input) (dt : ℚ) (o : Oracles) (ro : ResetOracle) :
      Reachable g → Reachable (g.Update inp dt o ro)

/-! ## Theorems about the claims -/

/-- C5 (amended): for every entity and every amount, `TakeDamage` with
`amount ≥ health` yields `health = 0` and `active = false`; with
`amount < health` it yields `health = health_before − amount` and leaves
`active` unchanged (hence `active = true` whenever the entity was active).
The trailing conjuncts support the "no other path deactivates a
damage-taking entity" part: the enemy and player per-tick updates and the
cooldown reset never touch the `active` flag. -/
theorem takeDamage_spec (e : Entity) (amount : ℤ) :
    ((e.health ≤ amount →
      (e.TakeDamage amount).health = 0 ∧ (e.TakeDamage amount).active = false) ∧
    (amount < e.health →
      (e.TakeDamage amount).health = e.health - amount ∧
        (e.TakeDamage amount).active = e.active)) ∧
    (∀ (en : Enemy) (dt : ℚ) (pl : Player) (chg bp : ℚ × ℚ),
      (en.Update dt pl chg bp).active = en.active) ∧
    (∀ en : Enemy, en.ResetShootCooldown.active = en.active) ∧
    (∀ (pl : Player) (inp : Input) (dt : ℚ),
      (pl.Update inp dt).active = pl.active) := by
  refine ⟨⟨?_, ?_⟩, ?_, fun _ => rfl, ?_⟩
  · intro h
    unfold Entity.TakeDamage
    rw [if_pos (by omega)]
    exact ⟨rfl, rfl⟩
  · intro h
    unfold Entity.TakeDamage
    rw [if_neg (by omega)]
    exact ⟨rfl, rfl⟩
  · intro en dt pl chg bp
    unfold Enemy.Update Enemy.ChangeDirection
    dsimp only
    split_ifs <;> rfl
  · intro pl inp dt
    unfold Player.Update
    dsimp only
    split_ifs <;> rfl

/-- C5, counterexample to the claim as stated: a default-constructed pool
projectile is an entity with `health = 1` and `active = false`; damaging it
by `0 < health` leaves it inactive, refuting the claimed `active == true` in
the `amount < health` branch. -/
theorem takeDamage_claim_cex :
    ¬ (∀ (e : Entity) (amount : ℤ), amount < e.health →
        (e.TakeDamage amount).health = e.health - amount ∧
          (e.TakeDamage amount).active = true) := by
  intro h
  exact absurd (h Projectile.default.toEntity 0 (by decide)).2 (by decide)

/-- C5 witness: both branches of `takeDamage_spec` at the concrete enemy
entity with health 30. -/
theorem takeDamage_spec_wit :
    ((Entity.new 0 0 12 30 .RED).TakeDamage 30).health = 0 ∧
      ((Entity.new 0 0 12 30 .RED).TakeDamage 30).active = false ∧
      ((Entity.new 0 0 12 30 .RED).TakeDamage 7).health = 23 ∧
      ((Entity.new 0 0 12 30 .RED).TakeDamage 7).active = true := by
  have h1 := (takeDamage_spec (Entity.new 0 0 12 30 .RED) 30).1.1 (by decide)
  have h2 := (takeDamage_spec (Entity.new 0 0 12 30 .RED) 7).1.2 (by decide)
  exact ⟨h1.1, h1.2, h2.1.trans (by decide), h2.2.trans (by decide)⟩

/-- C2: for every pool slot and origin, firing right as the player yields an
active projectile at `(x+20, y)` with velocity `(+400, 0)`, player faction
and damage 10; firing down as an enemy yields velocity `(0, +400)`, enemy
faction and damage 5; and a freshly constructed projectile is inactive. -/
theorem fire_spec (p : Projectile) (x y : ℚ) :
    (fireAt p x y .RIGHT false).active = true ∧
    (fireAt p x y .RIGHT false).x = x + 20 ∧
    (fireAt p x y .RIGHT false).y = y ∧
    (fireAt p x y .RIGHT false).speedX = 400 ∧
    (fireAt p x y .RIGHT false).speedY = 0 ∧
    (fireAt p x y .RIGHT false).isEnemyProjectile = false ∧
    (fireAt p x y .RIGHT false).damage = 10 ∧
    (fireAt p x y .DOWN true).active = true ∧
    (fireAt p x y .DOWN true).speedX = 0 ∧
    (fireAt p x y .DOWN true).speedY = 400 ∧
    (fireAt p x y .DOWN true).isEnemyProjectile = true ∧
    (fireAt p x y .DOWN true).damage = 5 ∧
    Projectile.default.active = false :=
  ⟨rfl, rfl, rfl, rfl, rfl, rfl, rfl, rfl, rfl, rfl, rfl, rfl, rfl⟩

/-- C8: collision is symmetric; it holds iff the Euclidean center distance is
strictly below the radius sum; and a distance exactly equal to the radius sum
is no collision. -/
theorem isColliding_spec (a b : Entity) :
    (a.IsColliding b ↔ b.IsColliding a) ∧
    (a.IsColliding b ↔ a.distanceTo b < ((a.radius + b.radius : ℚ) : ℝ)) ∧
    (a.distanceTo b = ((a.radius + b.radius : ℚ) : ℝ) → ¬ a.IsColliding b) := by
  refine ⟨?_, Iff.rfl, ?_⟩
  · unfold Entity.IsColliding sqrtDistLt
    have hq : (a.x - b.x) * (a.x - b.x) + (a.y - b.y) * (a.y - b.y)
        = (b.x - a.x) * (b.x - a.x) + (b.y - a.y) * (b.y - a.y) := by ring
    have hs : a.radius + b.radius = b.radius + a.radius := by ring
    rw [hq, hs]
  · intro hEq hColl
    rw [Entity.isColliding_eq_distanceTo, hEq] at hColl
    exact lt_irrefl _ hColl

/-- C8 witness: two entities with center distance 5 (a 3-4-5 triangle) and
radius sum exactly 5 do not collide. -/
theorem isColliding_spec_wit :
    ¬ (Entity.new 0 0 1 1 .RED).IsColliding (Entity.new 3 4 4 1 .RED) := by
  apply (isColliding_spec (Entity.new 0 0 1 1 .RED) (Entity.new 3 4 4 1 .RED)).2.2
  show Real.sqrt _ = _
  norm_num [Entity.distanceTo, Entity.new]
  rw [show (25 : ℝ) = 5 ^ 2 by norm_num]
  rw [Real.sqrt_sq (by norm_num : (0:ℝ) ≤ 5)]

/-- C7: after `Room::Update` runs, `cleared` is exactly the conjunction "no
contained enemy is active": it is `true` when all enemies (in particular,
none) are inactive and `false` when at least one enemy is active after the
update. -/
theorem roomUpdate_cleared_spec (r : Room) (dt : ℚ) (pl : Player)
    (chg : ℕ → ℚ × ℚ) (bp : ℚ × ℚ) :
    (r.Update dt pl chg bp).cleared
        = (r.Update dt pl chg bp).enemies.all (fun e => !e.active) ∧
    ((∀ e ∈ (r.Update dt pl chg bp).enemies, e.active = false) →
      (r.Update dt pl chg bp).cleared = true) ∧
    (r.enemies = [] → (r.Update dt pl chg bp).cleared = true) ∧
    ((∃ e ∈ (r.Update dt pl chg bp).enemies, e.active = true) →
      (r.Update dt pl chg bp).cleared = false) := by
  refine ⟨rfl, ?_, ?_, ?_⟩
  · intro h
    rw [show (r.Update dt pl chg bp).cleared
        = (r.Update dt pl chg bp).enemies.all (fun e => !e.active) from rfl]
    rw [List.all_eq_true]
    intro e he
    simp [h e he]
  · intro h
    simp [Room.Update, h, Room.updateEnemies]
  · rintro ⟨e, he, hact⟩
    rw [show (r.Update dt pl chg bp).cleared
        = (r.Update dt pl chg bp).enemies.all (fun e => !e.active) from rfl]
    rw [List.all_eq_false]
    exact ⟨e, he, by simp [hact]⟩

/-- C7 witness: an enemy-free room reports cleared after one update; a room
holding one live enemy reports not cleared. -/
theorem roomUpdate_cleared_wit :
    ((Room.new 0 0 800 600 false).Update 0 (Player.new 400 300)
        (fun _ => (0, 0)) (0, 0)).cleared = true ∧
    (({ Room.new 0 0 800 600 false with
        enemies := [Enemy.new 100 100 (3, 4)] } : Room).Update 0
        (Player.new 400 300) (fun _ => (0, 0)) (0, 0)).cleared = false := by
  constructor
  · exact (roomUpdate_cleared_spec _ _ _ _ _).2.2.1 rfl
  · refine (roomUpdate_cleared_spec _ _ _ _ _).2.2.2 ?_
    have h : (({ Room.new 0 0 800 600 false with
        enemies := [Enemy.new 100 100 (3, 4)] } : Room).Update 0
        (Player.new 400 300) (fun _ => (0, 0)) (0, 0)).enemies.any
          (fun e => e.active) = true := by
      with_unfolding_all decide
    obtain ⟨e, he, hact⟩ := List.any_eq_true.mp h
    exact ⟨e, he, hact⟩

/-- C4: a fire request activates exactly the first inactive slot in pool
index order (the result is the pool with that one slot replaced); an
all-active pool is left entirely unchanged, as is every other component of
the game state; and the pool of a fresh game has exactly 100 slots. -/
theorem firePool_spec (pool : List Projectile) (sx sy : ℚ) (dir : Direction)
    (fe : Bool) (g : Game) (ro : ResetOracle) :
    ((∀ p ∈ pool, p.active = true) → FirePool pool sx sy dir fe = pool) ∧
    (∀ i p, pool.get? i = some p → p.active = false →
      (∀ j q, j < i → pool.get? j = some q → q.active = true) →
      FirePool pool sx sy dir fe = pool.set i (fireAt p sx sy dir fe)) ∧
    (Game.new ro).projectiles.length = 100 ∧
    (g.FireProjectile sx sy dir fe).player = g.player ∧
    (g.FireProjectile sx sy dir fe).rooms = g.rooms ∧
    (g.FireProjectile sx sy dir fe).currentRoom = g.currentRoom ∧
    (g.FireProjectile sx sy dir fe).isMainMenu = g.isMainMenu ∧
    (g.FireProjectile sx sy dir fe).isGameOver = g.isGameOver := by
  refine ⟨?_, ?_, ?_, rfl, rfl, rfl, rfl, rfl⟩
  · intro h
    induction pool with
    | nil => rfl
    | cons p rest ih =>
        rw [FirePool]
        rw [if_neg (by simp [h p (List.mem_cons_self p rest)])]
        rw [ih (fun q hq => h q (List.mem_cons_of_mem p hq))]
  · intro i
    induction pool generalizing i with
    | nil => intro p hp; simp at hp
    | cons q rest ih =>
        intro p hp hact hfirst
        cases i with
        | zero =>
            rw [List.get?_cons_zero] at hp
            cases hp
            rw [FirePool, if_pos hact, List.set_cons_zero]
        | succ i =>
            have hq : q.active = true := hfirst 0 q (Nat.succ_pos i) rfl
            rw [FirePool, if_neg (by simp [hq]), List.set_cons_succ]
            rw [List.get?_cons_succ] at hp
            rw [ih i p hp hact
              (fun j r hj hr =>
                hfirst (j + 1) r (Nat.succ_lt_succ hj) (by rw [List.get?_cons_succ]; exact hr))]
  · simp [Game.new, Game.ResetGame]

/-- C4 witness: on a pool whose slot 0 is active and slot 1 inactive, firing
replaces exactly slot 1; on an all-active pool, firing is the identity. -/
theorem firePool_spec_wit :
    FirePool [fireAt Projectile.default 0 0 .RIGHT false, Projectile.default]
        1 2 .RIGHT false
      = [fireAt Projectile.default 0 0 .RIGHT false, Projectile.default].set 1
          (fireAt Projectile.default 1 2 .RIGHT false) ∧
    FirePool [fireAt Projectile.default 0 0 .RIGHT false] 1 2 .RIGHT false
      = [fireAt Projectile.default 0 0 .RIGHT false] := by
  constructor
  · refine (firePool_spec _ 1 2 .RIGHT false
        ⟨true, false, Player.new 0 0, [], 0, []⟩
        ⟨fun _ => 0, fun _ _ => (0, 0), fun _ _ => (0, 0)⟩).2.1 1
        Projectile.default rfl rfl ?_
    intro j q hj hq
    have hj0 : j = 0 := by omega
    subst hj0
    rw [List.get?_cons_zero] at hq
    cases hq
    rfl
  · apply (firePool_spec _ 1 2 .RIGHT false
        ⟨true, false, Player.new 0 0, [], 0, []⟩
        ⟨fun _ => 0, fun _ _ => (0, 0), fun _ _ => (0, 0)⟩).1
    intro p hp
    simp only [List.mem_singleton] at hp
    subst hp
    rfl

/-! ### Frame lemmas for the tick pipeline -/

theorem CheckWinLose_player (g : Game) : (g.CheckWinLose).player = g.player := rfl

theorem CheckWinLose_rooms (g : Game) : (g.CheckWinLose).rooms = g.rooms := rfl

theorem CheckWinLose_currentRoom (g : Game) :
    (g.CheckWinLose).currentRoom = g.currentRoom := rfl

theorem preTransition_currentRoom (g : Game) (inp : Input) (dt : ℚ) (o : Oracles) :
    (g.preTransition inp dt o).currentRoom = g.currentRoom := by
  unfold Game.preTransition
  cases hr : g.rooms.get? g.currentRoom <;> rfl

theorem preTransition_rooms_length (g : Game) (inp : Input) (dt : ℚ) (o : Oracles) :
    (g.preTransition inp dt o).rooms.length = g.rooms.length := by
  unfold Game.preTransition
  cases hr : g.rooms.get? g.currentRoom
  · rfl
  · simp

theorem roomTransition_rooms (g : Game) : (g.roomTransition).rooms = g.rooms := by
  unfold Game.roomTransition
  cases hr : g.rooms.get? g.currentRoom
  · rfl
  · dsimp only
    split
    · split <;> rfl
    · split <;> rfl

/-- C1: on any Playing tick after which the player's health is `≤ 0` the game
is in GameOver mode and the game-over screen shows the defeat outcome — this
holds for every pre-tick state, in particular also when the victory condition
(last room current and cleared) became true on the same tick: the defeat
check runs after the victory check and the outcome is decided by the
player's health alone. -/
theorem defeat_priority (g : Game) (inp : Input) (dt : ℚ) (o : Oracles)
    (h : (g.UpdateGame inp dt o).player.health ≤ 0) :
    (g.UpdateGame inp dt o).isGameOver = true ∧
    (g.UpdateGame inp dt o).outcome = Outcome.defeat := by
  unfold Game.UpdateGame at *
  rw [CheckWinLose_player] at h
  constructor
  · show (if ((g.preTransition inp dt o).roomTransition).player.health ≤ 0 then
        true else _) = true
    rw [if_pos h]
  · unfold Game.outcome
    rw [CheckWinLose_player]
    rw [if_pos h]

/-- C1 witness: a dead player in the (single, already clear) final room: the
tick sets GameOver and the outcome is defeat although the victory condition
also holds on that tick. -/
theorem defeat_priority_wit :
    (Game.UpdateGame
        ⟨false, false, ⟨⟨400, 300, 15, 0, 100, true, .BLUE, .RIGHT⟩, 0, 0, 0⟩,
          [Room.new 0 0 800 600 false], 0, []⟩
        ⟨false, false, false, false, false, false⟩ 0
        ⟨fun _ => (0, 0), (0, 0)⟩).isGameOver = true ∧
    (Game.UpdateGame
        ⟨false, false, ⟨⟨400, 300, 15, 0, 100, true, .BLUE, .RIGHT⟩, 0, 0, 0⟩,
          [Room.new 0 0 800 600 false], 0, []⟩
        ⟨false, false, false, false, false, false⟩ 0
        ⟨fun _ => (0, 0), (0, 0)⟩).outcome = Outcome.defeat := by
  exact defeat_priority _ _ _ _ (by with_unfolding_all decide)

/-- Exhaustive case analysis of the room-transition step. -/
theorem roomTransition_cases (g : Game) :
    (g.rooms.get? g.currentRoom = none ∧ g.roomTransition = g) ∨
    (∃ room, g.rooms.get? g.currentRoom = some room ∧
      ¬ g.player.x > room.x + room.width - 50 ∧ g.roomTransition = g) ∨
    (∃ room, g.rooms.get? g.currentRoom = some room ∧ room.cleared = true ∧
      g.player.x > room.x + room.width - 50 ∧
      ¬ g.currentRoom < g.rooms.length - 1 ∧ g.roomTransition = g) ∨
    (∃ room, g.rooms.get? g.currentRoom = some room ∧ room.cleared = false ∧
      g.player.x > room.x + room.width - 50 ∧
      g.roomTransition
        = { g with player := { g.player with x := room.x + room.width - 50 } }) ∨
    (∃ room, g.rooms.get? g.currentRoom = some room ∧ room.cleared = true ∧
      g.player.x > room.x + room.width - 50 ∧
      g.currentRoom < g.rooms.length - 1 ∧
      g.roomTransition = { g with
        currentRoom := g.currentRoom + 1
        player := { g.player with
          x := (g.rooms.getD (g.currentRoom + 1) room).x + 50 } }) := by
  unfold Game.roomTransition
  cases hr : g.rooms.get? g.currentRoom with
  | none => exact Or.inl ⟨rfl, rfl⟩
  | some room =>
      dsimp only
      by_cases hx : g.player.x > room.x + room.width - 50
      · cases hcl : room.cleared with
        | false =>
            refine Or.inr (Or.inr (Or.inr (Or.inl ⟨room, rfl, hcl, hx, ?_⟩)))
            rw [if_neg (by simp), if_pos ⟨rfl, hx⟩]
        | true =>
            by_cases hadv : g.currentRoom < g.rooms.length - 1
            · refine Or.inr (Or.inr (Or.inr (Or.inr ⟨room, rfl, hcl, hx, hadv, ?_⟩)))
              rw [if_pos ⟨rfl, hx⟩, if_pos hadv]
            · refine Or.inr (Or.inr (Or.inl ⟨room, rfl, hcl, hx, hadv, ?_⟩))
              rw [if_pos ⟨rfl, hx⟩, if_neg hadv]
      · refine Or.inr (Or.inl ⟨room, rfl, hx, ?_⟩)
        rw [if_neg (fun hc => hx hc.2), if_neg (fun hc => hx hc.2)]

/-- C9: whenever the transition step advances the cursor, it advances it by
exactly one, sets the player's x to the new room's `x + 50`, and leaves the
player's y, health, shoot cooldown and facing, the projectile pool, the room
list and the mode flags unchanged. -/
theorem transition_frame (g : Game)
    (h : (g.roomTransition).currentRoom ≠ g.currentRoom) :
    (g.roomTransition).currentRoom = g.currentRoom + 1 ∧
    (∃ nroom, g.rooms.get? (g.currentRoom + 1) = some nroom ∧
      (g.roomTransition).player.x = nroom.x + 50) ∧
    (g.roomTransition).player.y = g.player.y ∧
    (g.roomTransition).player.health = g.player.health ∧
    (g.roomTransition).player.shootCooldown = g.player.shootCooldown ∧
    (g.roomTransition).player.facing = g.player.facing ∧
    (g.roomTransition).projectiles = g.projectiles ∧
    (g.roomTransition).rooms = g.rooms ∧
    (g.roomTransition).isMainMenu = g.isMainMenu ∧
    (g.roomTransition).isGameOver = g.isGameOver := by
  rcases roomTransition_cases g with ⟨_, he⟩ | ⟨room, _, _, he⟩ |
      ⟨room, _, _, _, _, he⟩ | ⟨room, _, _, _, he⟩ |
      ⟨room, hr, hcl, hx, hadv, he⟩
  · exact absurd (by rw [he]) h
  · exact absurd (by rw [he]) h
  · exact absurd (by rw [he]) h
  · exact absurd (by rw [he]) h
  · have hlt : g.currentRoom + 1 < g.rooms.length := by
      have : g.rooms.length ≠ 0 := by
        intro h0
        rw [List.get?_eq_none.mpr (by omega)] at hr
        exact Option.noConfusion hr
      omega
    rw [he]
    refine ⟨rfl, ⟨g.rooms.getD (g.currentRoom + 1) room, ?_, rfl⟩,
      rfl, rfl, rfl, rfl, rfl, rfl, rfl, rfl⟩
    rw [List.getD_eq_getD_get?]
    rw [List.get?_eq_get hlt]
    rfl

/-- C9 witness: a concrete advancing transition (cleared room 0, player past
the exit boundary): cursor goes to 1 and nothing but the cursor and the
player's x changes. -/
theorem transition_frame_wit :
    (Game.roomTransition
        ⟨false, false, ⟨⟨780, 300, 15, 100, 100, true, .BLUE, .RIGHT⟩, 0, 0, 0⟩,
          [{ Room.new 0 0 800 600 false with cleared := true },
            Room.new 800 0 800 600 false], 0, []⟩).currentRoom = 1 ∧
    (Game.roomTransition
        ⟨false, false, ⟨⟨780, 300, 15, 100, 100, true, .BLUE, .RIGHT⟩, 0, 0, 0⟩,
          [{ Room.new 0 0 800 600 false with cleared := true },
            Room.new 800 0 800 600 false], 0, []⟩).player.y = 300 := by
  have h := transition_frame
    ⟨false, false, ⟨⟨780, 300, 15, 100, 100, true, .BLUE, .RIGHT⟩, 0, 0, 0⟩,
      [{ Room.new 0 0 800 600 false with cleared := true },
        Room.new 800 0 800 600 false], 0, []⟩
    (by with_unfolding_all decide)
  exact ⟨h.1, h.2.2.1⟩

/-- C6: (step level) on a tick in which the current room is not cleared and
the player's x exceeds the room's right edge minus 50, the transition step
sets the player's x to exactly that boundary and does not advance the cursor;
(tick level) a Playing tick never ends with the player past the exit boundary
of an uncleared current room (for rooms at least 100 units wide, as all
generated rooms are). -/
theorem blocked_exit_spec (g : Game) (inp : Input) (dt : ℚ) (o : Oracles) :
    (∀ room, g.rooms.get? g.currentRoom = some room → room.cleared = false →
      g.player.x > room.x + room.width - 50 →
      (g.roomTransition).player.x = room.x + room.width - 50 ∧
      (g.roomTransition).currentRoom = g.currentRoom) ∧
    (∀ room', (g.UpdateGame inp dt o).rooms.get?
        ((g.UpdateGame inp dt o).currentRoom) = some room' →
      room'.cleared = false → 100 ≤ room'.width →
      (g.UpdateGame inp dt o).player.x ≤ room'.x + room'.width - 50) := by
  constructor
  · intro room hr0 hcl hx
    unfold Game.roomTransition
    rw [hr0]
    dsimp only
    rw [if_neg (by simp [hcl]), if_pos ⟨hcl, hx⟩]
    exact ⟨rfl, rfl⟩
  · intro room' hr' hcl' hw
    unfold Game.UpdateGame at hr' ⊢
    rw [CheckWinLose_rooms, CheckWinLose_currentRoom] at hr'
    rw [CheckWinLose_player]
    rcases roomTransition_cases (g.preTransition inp dt o) with ⟨hn, he⟩ |
        ⟨room, hr, hx, he⟩ | ⟨room, hr, hcl, hx, _, he⟩ |
        ⟨room, hr, hcl, hx, he⟩ | ⟨room, hr, hcl, hx, hadv, he⟩
    · rw [he] at hr'
      rw [hn] at hr'
      exact Option.noConfusion hr'
    · rw [he] at hr' ⊢
      rw [hr] at hr'
      cases hr'
      exact le_of_not_lt hx
    · rw [he] at hr' ⊢
      rw [hr] at hr'
      cases hr'
      rw [hcl] at hcl'
      exact Bool.noConfusion hcl'
    · rw [he] at hr' ⊢
      rw [hr] at hr'
      cases hr'
      exact le_refl _
    · rw [he] at hr' ⊢
      dsimp only at hr' ⊢
      rw [List.getD_eq_getD_get?, hr']
      dsimp only [Option.getD_some]
      linarith

/-- C6 witness: a concrete blocked exit: an uncleared room `[0,800]×[0,600]`
with the player at x = 780 is clamped back to x = 750 by the transition
step, and the cursor stays at 0. -/
theorem blocked_exit_spec_wit :
    (Game.roomTransition
        ⟨false, false, ⟨⟨780, 300, 15, 100, 100, true, .BLUE, .RIGHT⟩, 0, 0, 0⟩,
          [{ Room.new 0 0 800 600 false with
              enemies := [Enemy.new 100 100 (3, 4)] }], 0, []⟩).player.x = 750 ∧
    (Game.roomTransition
        ⟨false, false, ⟨⟨780, 300, 15, 100, 100, true, .BLUE, .RIGHT⟩, 0, 0, 0⟩,
          [{ Room.new 0 0 800 600 false with
              enemies := [Enemy.new 100 100 (3, 4)] }], 0, []⟩).currentRoom
      = 0 := by
  have h := (blocked_exit_spec
    ⟨false, false, ⟨⟨780, 300, 15, 100, 100, true, .BLUE, .RIGHT⟩, 0, 0, 0⟩,
      [{ Room.new 0 0 800 600 false with
          enemies := [Enemy.new 100 100 (3, 4)] }], 0, []⟩
    ⟨false, false, false, false, false, false⟩ 0
    ⟨fun _ => (0, 0), (0, 0)⟩).1
    { Room.new 0 0 800 600 false with enemies := [Enemy.new 100 100 (3, 4)] }
    rfl rfl (by with_unfolding_all decide)
  exact ⟨h.1.trans (by with_unfolding_all decide), h.2⟩

/-! ### Lemmas for the cursor invariant and clear-flag monotonicity -/

theorem UpdateGame_rooms_length (g : Game) (inp : Input) (dt : ℚ) (o : Oracles) :
    (g.UpdateGame inp dt o).rooms.length = g.rooms.length := by
  unfold Game.UpdateGame
  rw [CheckWinLose_rooms, roomTransition_rooms, preTransition_rooms_length]

/-- The tick either keeps the cursor or advances it by one, the latter only
when the mid-tick state (after steps 1–6) has a cleared current room, the
player past its exit boundary, and a next room. -/
theorem UpdateGame_cursor_cases (g : Game) (inp : Input) (dt : ℚ) (o : Oracles) :
    (g.UpdateGame inp dt o).currentRoom = g.currentRoom ∨
    ((g.UpdateGame inp dt o).currentRoom = g.currentRoom + 1 ∧
      g.currentRoom + 1 < g.rooms.length ∧
      ∃ room, (g.preTransition inp dt o).rooms.get? g.currentRoom = some room ∧
        room.cleared = true ∧
        (g.preTransition inp dt o).player.x > room.x + room.width - 50) := by
  have hc := preTransition_currentRoom g inp dt o
  have hl := preTransition_rooms_length g inp dt o
  unfold Game.UpdateGame
  rw [CheckWinLose_currentRoom]
  rcases roomTransition_cases (g.preTransition inp dt o) with ⟨_, he⟩ |
      ⟨room, hr, hx, he⟩ | ⟨room, hr, hcl, hx, _, he⟩ |
      ⟨room, hr, hcl, hx, he⟩ | ⟨room, hr, hcl, hx, hadv, he⟩
  · rw [he]; exact Or.inl hc
  · rw [he]; exact Or.inl hc
  · rw [he]; exact Or.inl hc
  · rw [he]; exact Or.inl hc
  · rw [hc, hl] at hadv
    rw [hc] at hr
    refine Or.inr ⟨?_, by omega, room, hr, hcl, hx⟩
    rw [he]
    show (g.preTransition inp dt o).currentRoom + 1 = g.currentRoom + 1
    rw [hc]

/-- In every reachable state the cursor is a valid index. -/
theorem reachable_cursor_lt (g : Game) (hg : Reachable g) :
    g.currentRoom < g.rooms.length := by
  induction hg with
  | init ro =>
      show (Game.new ro).currentRoom < (Game.new ro).rooms.length
      simp [Game.new, Game.ResetGame]
  | step g inp dt o ro _ ih =>
      unfold Game.Update
      split
      · split
        · exact ih
        · exact ih
      · split
        · split
          · show (Game.ResetGame g ro).currentRoom < (Game.ResetGame g ro).rooms.length
            simp [Game.ResetGame]
          · exact ih
        · rcases UpdateGame_cursor_cases g inp dt o with hsame | ⟨hinc, hlt, -⟩
          · rw [hsame, UpdateGame_rooms_length]; exact ih
          · rw [hinc, UpdateGame_rooms_length]; exact hlt

/-- C3: in every reachable state the current-room cursor is a valid index
(`0 ≤ cursor` holds by the `ℕ` type, mirroring that the C++ `int` cursor is
only ever assigned 0 or incremented); on any tick the cursor stays or grows
by exactly one, remains a valid index, and it grows only when — in the
mid-tick state the transition check inspects — the current room is cleared,
the player's x exceeds the room's right edge minus 50, and a next room
exists. -/
theorem cursor_spec (g : Game) (hg : Reachable g) (inp : Input) (dt : ℚ)
    (o : Oracles) :
    g.currentRoom < g.rooms.length ∧
    ((g.UpdateGame inp dt o).currentRoom = g.currentRoom ∨
      (g.UpdateGame inp dt o).currentRoom = g.currentRoom + 1) ∧
    (g.UpdateGame inp dt o).currentRoom < (g.UpdateGame inp dt o).rooms.length ∧
    ((g.UpdateGame inp dt o).currentRoom = g.currentRoom + 1 →
      g.currentRoom + 1 < g.rooms.length ∧
      ∃ room, (g.preTransition inp dt o).rooms.get? g.currentRoom = some room ∧
        room.cleared = true ∧
        (g.preTransition inp dt o).player.x > room.x + room.width - 50) := by
  have hinv := reachable_cursor_lt g hg
  rcases UpdateGame_cursor_cases g inp dt o with hsame | ⟨hinc, hlt, hcond⟩
  · refine ⟨hinv, Or.inl hsame, ?_, ?_⟩
    · rw [hsame, UpdateGame_rooms_length]; exact hinv
    · intro hinc
      rw [hsame] at hinc
      omega
  · refine ⟨hinv, Or.inr hinc, ?_, fun _ => ⟨hlt, hcond⟩⟩
    rw [hinc, UpdateGame_rooms_length]
    exact hlt

/-- C3 witness: the freshly constructed game is reachable; its cursor is a
valid index and one tick keeps it one of `cursor`, `cursor + 1`. -/
theorem cursor_spec_wit :
    (Game.new ⟨fun _ => 0, fun _ _ => (0, 0), fun _ _ => (0, 0)⟩).currentRoom
        < (Game.new ⟨fun _ => 0, fun _ _ => (0, 0), fun _ _ => (0, 0)⟩).rooms.length ∧
    (((Game.new ⟨fun _ => 0, fun _ _ => (0, 0), fun _ _ => (0, 0)⟩).UpdateGame
          ⟨false, false, false, false, false, false⟩ 0
          ⟨fun _ => (0, 0), (0, 0)⟩).currentRoom
        = (Game.new ⟨fun _ => 0, fun _ _ => (0, 0), fun _ _ => (0, 0)⟩).currentRoom ∨
      ((Game.new ⟨fun _ => 0, fun _ _ => (0, 0), fun _ _ => (0, 0)⟩).UpdateGame
          ⟨false, false, false, false, false, false⟩ 0
          ⟨fun _ => (0, 0), (0, 0)⟩).currentRoom
        = (Game.new ⟨fun _ => 0, fun _ _ => (0, 0), fun _ _ => (0, 0)⟩).currentRoom + 1) := by
  have h := cursor_spec (Game.new ⟨fun _ => 0, fun _ _ => (0, 0), fun _ _ => (0, 0)⟩)
    (Reachable.init _) ⟨false, false, false, false, false, false⟩ 0
    ⟨fun _ => (0, 0), (0, 0)⟩
  exact ⟨h.1, h.2.1⟩

theorem EnemyShooting_inactive (pool : List Projectile) (es : List Enemy)
    (h : ∀ e ∈ es, e.active = false) : EnemyShooting pool es = (pool, es) := by
  induction es generalizing pool with
  | nil => rfl
  | cons e rest ih =>
      rw [EnemyShooting]
      rw [if_neg (by simp [h e (List.mem_cons_self e rest)])]
      rw [ih pool (fun q hq => h q (List.mem_cons_of_mem e hq))]

theorem DamageFirstHit_inactive (p : Projectile) (es : List Enemy)
    (h : ∀ e ∈ es, e.active = false) : DamageFirstHit p es = none := by
  induction es with
  | nil => rfl
  | cons e rest ih =>
      rw [DamageFirstHit]
      rw [if_neg (by simp [h e (List.mem_cons_self e rest)])]
      rw [ih (fun q hq => h q (List.mem_cons_of_mem e hq))]

theorem ProjStep_enemies_inactive (room : Room) (dt : ℚ) (p : Projectile)
    (es : List Enemy) (pl : Player) (h : ∀ e ∈ es, e.active = false) :
    (ProjStep room dt p es pl).2.1 = es := by
  unfold ProjStep
  split
  · split
    · rfl
    · split
      · rw [DamageFirstHit_inactive _ _ h]
      · split <;> rfl
  · rfl

theorem UpdateProjectilesLoop_enemies_inactive (room : Room) (dt : ℚ)
    (ps : List Projectile) (es : List Enemy) (pl : Player)
    (h : ∀ e ∈ es, e.active = false) :
    (UpdateProjectilesLoop room dt ps es pl).2.1 = es := by
  induction ps generalizing pl with
  | nil => rfl
  | cons p ps ih =>
      rw [UpdateProjectilesLoop]
      dsimp only
      rw [ProjStep_enemies_inactive room dt p es pl h]
      exact ih _

theorem updateEnemies_inactive (r : Room) (dt : ℚ) (pl : Player)
    (chg : ℕ → ℚ × ℚ) (bp : ℚ × ℚ) (i : ℕ) (es : List Enemy)
    (h : ∀ e ∈ es, e.active = false) :
    r.updateEnemies dt pl chg bp i es = es := by
  induction es generalizing i with
  | nil => rfl
  | cons e rest ih =>
      rw [Room.updateEnemies]
      rw [if_neg (by simp [h e (List.mem_cons_self e rest)])]
      rw [ih (i + 1) (fun q hq => h q (List.mem_cons_of_mem e hq))]

theorem preTransition_rooms_get_ne (g : Game) (inp : Input) (dt : ℚ)
    (o : Oracles) (i : ℕ) (hne : i ≠ g.currentRoom) :
    (g.preTransition inp dt o).rooms.get? i = g.rooms.get? i := by
  unfold Game.preTransition
  cases hr : g.rooms.get? g.currentRoom
  · rfl
  · dsimp only
    exact List.get?_set_ne _ _ (Ne.symm hne)

/-- Steps 1–6 keep a fully dead room fully dead and its `cleared` flag set:
the only enemy mutations — cooldown resets while shooting, damage from
projectile hits, and the movement update — all skip inactive enemies, and
`TakeDamage` never reactivates anything. -/
theorem preTransition_cleared_preserved (g : Game) (inp : Input) (dt : ℚ)
    (o : Oracles) (i : ℕ) (room : Room) (hr : g.rooms.get? i = some room)
    (hcl : room.cleared = true) (hin : ∀ e ∈ room.enemies, e.active = false) :
    ∃ room', (g.preTransition inp dt o).rooms.get? i = some room' ∧
      room'.cleared = true ∧ ∀ e ∈ room'.enemies, e.active = false := by
  by_cases hic : i = g.currentRoom
  · subst hic
    have hilen : g.currentRoom < g.rooms.length := (List.get?_eq_some.mp hr).1
    have hall : room.enemies.all (fun e => !e.active) = true :=
      List.all_eq_true.mpr (fun e he => by simp [hin e he])
    have hEq : (g.preTransition inp dt o).rooms
        = g.rooms.set g.currentRoom { room with cleared := true } := by
      unfold Game.preTransition
      rw [hr]
      dsimp only
      rw [EnemyShooting_inactive _ _ hin]
      dsimp only
      rw [UpdateProjectilesLoop_enemies_inactive _ _ _ _ _ hin]
      unfold Room.Update
      dsimp only
      rw [updateEnemies_inactive _ _ _ _ _ _ _ hin]
      rw [hall]
    rw [hEq, List.get?_set_eq_of_lt _ hilen]
    exact ⟨{ room with cleared := true }, rfl, rfl, hin⟩
  · rw [preTransition_rooms_get_ne g inp dt o i hic, hr]
    exact ⟨room, rfl, hcl, hin⟩

/-- C10: a room that an update has reported cleared (flag set, all of its
enemies inactive) stays cleared across any subsequent Playing tick: ticks
never set an enemy's `active` flag back to true, so the recomputed
conjunction stays true and other rooms are untouched. -/
theorem cleared_monotone (g : Game) (inp : Input) (dt : ℚ) (o : Oracles)
    (i : ℕ) (room : Room) (hr : g.rooms.get? i = some room)
    (hcl : room.cleared = true) (hin : ∀ e ∈ room.enemies, e.active = false) :
    ∃ room', (g.UpdateGame inp dt o).rooms.get? i = some room' ∧
      room'.cleared = true ∧ ∀ e ∈ room'.enemies, e.active = false := by
  unfold Game.UpdateGame
  rw [CheckWinLose_rooms, roomTransition_rooms]
  exact preTransition_cleared_preserved g inp dt o i room hr hcl hin

/-- C10 witness: a cleared, enemy-free room 0 stays cleared over a tick. -/
theorem cleared_monotone_wit :
    ∃ room', ((Game.UpdateGame
        ⟨false, false, ⟨⟨400, 300, 15, 100, 100, true, .BLUE, .RIGHT⟩, 0, 0, 0⟩,
          [{ Room.new 0 0 800 600 false with cleared := true },
            Room.new 800 0 800 600 false], 0, []⟩
        ⟨false, false, false, false, false, false⟩ 0
        ⟨fun _ => (0, 0), (0, 0)⟩).rooms.get? 0 = some room') ∧
      room'.cleared = true ∧ ∀ e ∈ room'.enemies, e.active = false := by
  exact cleared_monotone _ _ _ _ 0
    { Room.new 0 0 800 600 false with cleared := true } rfl rfl
    (by intro e he; simp [Room.new] at he)

end Shooter
